import Mathlib

/-!
Verification of the TrackMaster audio-fingerprinting core: a shallow
embedding of the Feature Extraction Pipeline
(`backend/app/data/feature_vector_extract.py`) and the Similarity
Matching Engine (`backend/app/services/mongoclient.py`), with theorems
settling the specified normalization, shape, ordering and matching
properties.

Audio samples and feature values are embedded as rationals (`ℚ`).
Third-party signal-processing routines (librosa) and the external
vector store (MongoDB `$vectorSearch`) are not part of the repository;
they enter the embedding either as abstract function parameters or as
models built from the specification, each marked as such.
-/

namespace TrackMaster

/-- Configuration of `AudioFeatureExtractor.__init__`
(feature_vector_extract.py lines 19-48): sample rate, FFT window,
hop length, mel-band count, MFCC count and analysis duration. -/
structure ExtractorConfig where
  sample_rate : Nat
  n_fft : Nat
  hop_length : Nat
  n_mels : Nat
  n_mfcc : Nat
  duration : ℚ
deriving Repr, DecidableEq

/-- `self.fixed_length = int(duration * sample_rate)`
(feature_vector_extract.py line 47). `int()` truncates toward zero;
for the nonnegative products used here this is the floor. -/
def ExtractorConfig.fixed_length (cfg : ExtractorConfig) : Nat :=
  ⌊cfg.duration * cfg.sample_rate⌋.toNat

/-- `self.n_frames = 1 + int((fixed_length - n_fft) / hop_length)`
(feature_vector_extract.py line 48), over the integers;
`int()` of the float quotient truncates toward zero, i.e. `Int.tdiv`. -/
def ExtractorConfig.n_frames (cfg : ExtractorConfig) : Int :=
  1 + Int.tdiv ((cfg.fixed_length : Int) - (cfg.n_fft : Int)) (cfg.hop_length : Int)

/-- The defaults of `AudioFeatureExtractor.__init__`
(22050 Hz, n_fft 2048, hop 512, 128 mel bands, 20 MFCCs, 30 s),
which is the configuration `MusicMongoClient` constructs. -/
def defaultExtractor : ExtractorConfig :=
  { sample_rate := 22050, n_fft := 2048, hop_length := 512,
    n_mels := 128, n_mfcc := 20, duration := 30 }

/-- The length-fixing step of `extract_features`
(feature_vector_extract.py lines 70-76): right-zero-pad when the
signal is shorter than `D`, hard-truncate when longer, else unchanged.
`np.pad(audio, (0, k))` appends `k` zeros on the right. -/
def fixToLength (D : Nat) (audio : List ℚ) : List ℚ :=
  if audio.length < D then
    audio ++ List.replicate (D - audio.length) 0
  else if audio.length > D then
    audio.take D
  else
    audio

/-- The conditional-resampling step of `extract_features`
(feature_vector_extract.py lines 66-68): resample via
`librosa.resample` when the source rate differs from the target rate,
else leave the signal untouched. The resampler is third-party code
and enters as the abstract parameter
`resample audio orig_sr target_sr`. -/
def resampleIfNeeded (cfg : ExtractorConfig)
    (resample : List ℚ → Nat → Nat → List ℚ)
    (audio : List ℚ) (sr : Nat) : List ℚ :=
  if sr ≠ cfg.sample_rate then resample audio sr cfg.sample_rate else audio

/-- The normalization prefix of `extract_features`
(feature_vector_extract.py lines 66-76): conditional resampling, then
force the result to exactly `fixed_length` samples. -/
def normalizeSignal (cfg : ExtractorConfig)
    (resample : List ℚ → Nat → Nat → List ℚ)
    (audio : List ℚ) (sr : Nat) : List ℚ :=
  fixToLength cfg.fixed_length (resampleIfNeeded cfg resample audio sr)

/-! ### Basic facts about the length-fixing step -/

theorem fixToLength_length (D : Nat) (audio : List ℚ) :
    (fixToLength D audio).length = D := by
  unfold fixToLength
  split
  · simp only [List.length_append, List.length_replicate]
    omega
  · split
    · simp only [List.length_take]
      omega
    · omega

theorem fixToLength_of_le {D : Nat} {audio : List ℚ}
    (h : audio.length ≤ D) :
    fixToLength D audio = audio ++ List.replicate (D - audio.length) 0 := by
  unfold fixToLength
  rcases lt_or_eq_of_le h with hlt | heq
  · rw [if_pos hlt]
  · rw [if_neg (by omega), if_neg (by omega), heq, Nat.sub_self]
    simp

theorem fixToLength_of_gt {D : Nat} {audio : List ℚ}
    (h : audio.length > D) :
    fixToLength D audio = audio.take D := by
  unfold fixToLength
  rw [if_neg (by omega), if_pos h]

theorem fixToLength_nil (D : Nat) :
    fixToLength D [] = List.replicate D 0 := by
  rw [fixToLength_of_le (by simp)]
  simp

/-- The normalized signal always has exactly `fixed_length` samples,
for every resampler, input and source rate. -/
theorem normalizeSignal_length (cfg : ExtractorConfig)
    (resample : List ℚ → Nat → Nat → List ℚ)
    (audio : List ℚ) (sr : Nat) :
    (normalizeSignal cfg resample audio sr).length = cfg.fixed_length :=
  fixToLength_length _ _

/-- C2: for every input signal (any length, zero included) and every
source rate, the normalized signal has exactly `D = fixed_length`
samples; writing `y` for the post-resampling signal, it is `y`
right-zero-padded when `y` is no longer than `D` and `y` hard-truncated
to its first `D` samples when longer; and an empty input normalizes to
`D` zeros (for a resampler sending the empty signal to the empty
signal, which also covers the no-resampling case). -/
theorem normalized_signal_is_padded_or_truncated_to_D
    (cfg : ExtractorConfig) (resample : List ℚ → Nat → Nat → List ℚ)
    (audio : List ℚ) (sr : Nat)
    (hempty : resample [] sr cfg.sample_rate = []) :
    (normalizeSignal cfg resample audio sr).length = cfg.fixed_length ∧
    ((resampleIfNeeded cfg resample audio sr).length ≤ cfg.fixed_length →
      normalizeSignal cfg resample audio sr =
        resampleIfNeeded cfg resample audio sr ++
          List.replicate
            (cfg.fixed_length - (resampleIfNeeded cfg resample audio sr).length) 0) ∧
    ((resampleIfNeeded cfg resample audio sr).length > cfg.fixed_length →
      normalizeSignal cfg resample audio sr =
        (resampleIfNeeded cfg resample audio sr).take cfg.fixed_length) ∧
    (audio = [] →
      normalizeSignal cfg resample audio sr = List.replicate cfg.fixed_length 0) := by
  refine ⟨normalizeSignal_length cfg resample audio sr, ?_, ?_, ?_⟩
  · intro hle
    unfold normalizeSignal
    rw [fixToLength_of_le hle]
  · intro hgt
    unfold normalizeSignal
    rw [fixToLength_of_gt hgt]
  · intro hnil
    subst hnil
    unfold normalizeSignal resampleIfNeeded
    by_cases hsr : sr ≠ cfg.sample_rate
    · rw [if_pos hsr, hempty, fixToLength_nil]
    · rw [if_neg hsr, fixToLength_nil]

/-- Witness for C2 at a concrete instance: default configuration,
identity resampler, a 3-sample input at the target rate. -/
theorem normalized_signal_is_padded_or_truncated_to_D_witness :
    (normalizeSignal defaultExtractor (fun a _ _ => a) [1, 2, 3] 22050).length =
      defaultExtractor.fixed_length ∧
    ((resampleIfNeeded defaultExtractor (fun a _ _ => a) [1, 2, 3] 22050).length ≤
        defaultExtractor.fixed_length →
      normalizeSignal defaultExtractor (fun a _ _ => a) [1, 2, 3] 22050 =
        resampleIfNeeded defaultExtractor (fun a _ _ => a) [1, 2, 3] 22050 ++
          List.replicate
            (defaultExtractor.fixed_length -
              (resampleIfNeeded defaultExtractor (fun a _ _ => a)
                [1, 2, 3] 22050).length) 0) ∧
    ((resampleIfNeeded defaultExtractor (fun a _ _ => a) [1, 2, 3] 22050).length >
        defaultExtractor.fixed_length →
      normalizeSignal defaultExtractor (fun a _ _ => a) [1, 2, 3] 22050 =
        (resampleIfNeeded defaultExtractor (fun a _ _ => a)
          [1, 2, 3] 22050).take defaultExtractor.fixed_length) ∧
    ([1, 2, 3] = ([] : List ℚ) →
      normalizeSignal defaultExtractor (fun a _ _ => a) [1, 2, 3] 22050 =
        List.replicate defaultExtractor.fixed_length 0) :=
  normalized_signal_is_padded_or_truncated_to_D defaultExtractor
    (fun a _ _ => a) [1, 2, 3] 22050 rfl

/-- C5: with the source rate equal to the target rate, an input of
length `D / 2` (for even `D`) normalizes to a length-`D` signal whose
first half is the input and whose second half is all zeros, and an
input of length `2 * D` normalizes to exactly its first `D` samples. -/
theorem normalize_half_pads_and_double_truncates
    (cfg : ExtractorConfig) (resample : List ℚ → Nat → Nat → List ℚ)
    (audio : List ℚ) (sr : Nat) (hsr : sr = cfg.sample_rate) :
    (2 * audio.length = cfg.fixed_length →
      normalizeSignal cfg resample audio sr =
        audio ++ List.replicate (cfg.fixed_length - audio.length) 0 ∧
      (normalizeSignal cfg resample audio sr).take audio.length = audio ∧
      (normalizeSignal cfg resample audio sr).drop audio.length =
        List.replicate (cfg.fixed_length - audio.length) 0) ∧
    (audio.length = 2 * cfg.fixed_length ∧ 0 < cfg.fixed_length →
      normalizeSignal cfg resample audio sr = audio.take cfg.fixed_length) := by
  have hbranch : normalizeSignal cfg resample audio sr =
      fixToLength cfg.fixed_length audio := by
    unfold normalizeSignal resampleIfNeeded
    rw [if_neg (by simp [hsr])]
  constructor
  · intro hhalf
    have hle : audio.length ≤ cfg.fixed_length := by omega
    have heq : normalizeSignal cfg resample audio sr =
        audio ++ List.replicate (cfg.fixed_length - audio.length) 0 := by
      rw [hbranch, fixToLength_of_le hle]
    refine ⟨heq, ?_, ?_⟩
    · rw [heq, List.take_append_of_le_length (le_refl _), List.take_length]
    · rw [heq, List.drop_append_of_le_length (le_refl _), List.drop_length,
        List.nil_append]
  · rintro ⟨hdouble, hpos⟩
    rw [hbranch, fixToLength_of_gt (by omega)]

/-- Witness for C5: configuration with `D = 8` (rate 4, 2 seconds),
input `[1, 2, 3, 4]` of length `D / 2`, at the target rate. -/
theorem normalize_half_pads_and_double_truncates_witness :
    (2 * ([1, 2, 3, 4] : List ℚ).length =
        (ExtractorConfig.mk 4 4 2 8 2 2).fixed_length →
      normalizeSignal (ExtractorConfig.mk 4 4 2 8 2 2) (fun a _ _ => a)
          [1, 2, 3, 4] 4 =
        [1, 2, 3, 4] ++
          List.replicate
            ((ExtractorConfig.mk 4 4 2 8 2 2).fixed_length -
              ([1, 2, 3, 4] : List ℚ).length) 0 ∧
      (normalizeSignal (ExtractorConfig.mk 4 4 2 8 2 2) (fun a _ _ => a)
          [1, 2, 3, 4] 4).take ([1, 2, 3, 4] : List ℚ).length = [1, 2, 3, 4] ∧
      (normalizeSignal (ExtractorConfig.mk 4 4 2 8 2 2) (fun a _ _ => a)
          [1, 2, 3, 4] 4).drop ([1, 2, 3, 4] : List ℚ).length =
        List.replicate
          ((ExtractorConfig.mk 4 4 2 8 2 2).fixed_length -
            ([1, 2, 3, 4] : List ℚ).length) 0) ∧
    (([1, 2, 3, 4] : List ℚ).length =
          2 * (ExtractorConfig.mk 4 4 2 8 2 2).fixed_length ∧
        0 < (ExtractorConfig.mk 4 4 2 8 2 2).fixed_length →
      normalizeSignal (ExtractorConfig.mk 4 4 2 8 2 2) (fun a _ _ => a)
          [1, 2, 3, 4] 4 =
        ([1, 2, 3, 4] : List ℚ).take (ExtractorConfig.mk 4 4 2 8 2 2).fixed_length) :=
  normalize_half_pads_and_double_truncates (ExtractorConfig.mk 4 4 2 8 2 2)
    (fun a _ _ => a) [1, 2, 3, 4] 4 rfl

/-- C6: normalization resamples first and fixes the length second:
when the source rate differs from the target, the result is the
length-fix applied to the resampled signal; when the source rate
equals the target, the resampler is never consulted — the result is
the same for every resampler and equals the length-fix of the raw
input. -/
theorem normalize_resamples_before_length_fix
    (cfg : ExtractorConfig) (audio : List ℚ) (sr : Nat)
    (resample₁ resample₂ : List ℚ → Nat → Nat → List ℚ) :
    (sr ≠ cfg.sample_rate →
      normalizeSignal cfg resample₁ audio sr =
        fixToLength cfg.fixed_length (resample₁ audio sr cfg.sample_rate)) ∧
    (sr = cfg.sample_rate →
      normalizeSignal cfg resample₁ audio sr =
        normalizeSignal cfg resample₂ audio sr ∧
      normalizeSignal cfg resample₁ audio sr =
        fixToLength cfg.fixed_length audio) := by
  constructor
  · intro hne
    unfold normalizeSignal resampleIfNeeded
    rw [if_pos hne]
  · intro heq
    have hfix : ∀ resample : List ℚ → Nat → Nat → List ℚ,
        normalizeSignal cfg resample audio sr =
          fixToLength cfg.fixed_length audio := by
      intro resample
      unfold normalizeSignal resampleIfNeeded
      rw [if_neg (by simp [heq])]
    exact ⟨(hfix resample₁).trans (hfix resample₂).symm, hfix resample₁⟩

/-- Witness for C6: the reversing resampler against the identity
resampler, on a 2-sample input at the target rate of the small
`D = 8` configuration. -/
theorem normalize_resamples_before_length_fix_witness :
    ((4 : Nat) ≠ (ExtractorConfig.mk 4 4 2 8 2 2).sample_rate →
      normalizeSignal (ExtractorConfig.mk 4 4 2 8 2 2)
          (fun a _ _ => a.reverse) [5, 6] 4 =
        fixToLength (ExtractorConfig.mk 4 4 2 8 2 2).fixed_length
          (([5, 6] : List ℚ).reverse)) ∧
    ((4 : Nat) = (ExtractorConfig.mk 4 4 2 8 2 2).sample_rate →
      normalizeSignal (ExtractorConfig.mk 4 4 2 8 2 2)
          (fun a _ _ => a.reverse) [5, 6] 4 =
        normalizeSignal (ExtractorConfig.mk 4 4 2 8 2 2)
          (fun a _ _ => a) [5, 6] 4 ∧
      normalizeSignal (ExtractorConfig.mk 4 4 2 8 2 2)
          (fun a _ _ => a.reverse) [5, 6] 4 =
        fixToLength (ExtractorConfig.mk 4 4 2 8 2 2).fixed_length [5, 6]) :=
  normalize_resamples_before_length_fix (ExtractorConfig.mk 4 4 2 8 2 2)
    [5, 6] 4 (fun a _ _ => a.reverse) (fun a _ _ => a)

/-! ### Summary statistics (numpy mean / std over frame axes) -/

/-- `np.mean` of a 1-D array. -/
def rowMean (r : List ℚ) : ℚ := r.sum / r.length

/-- Population variance, the square under `np.std` (ddof = 0). -/
def rowVariance (r : List ℚ) : ℚ :=
  ((r.map fun v => (v - rowMean r) ^ 2).sum) / r.length

/-- `np.std` of a 1-D array; the square root is irrational in general
and enters as the abstract parameter `sqrt`. -/
def rowStd (sqrt : ℚ → ℚ) (r : List ℚ) : ℚ := sqrt (rowVariance r)

/-- `np.mean` of a 2-D array with no axis argument: the mean over all
entries. -/
def matMean (m : List (List ℚ)) : ℚ := rowMean m.flatten

/-- `np.std` of a 2-D array with no axis argument. -/
def matStd (sqrt : ℚ → ℚ) (m : List (List ℚ)) : ℚ := rowStd sqrt m.flatten

/-- The feature dictionary built at feature_vector_extract.py lines
193-219: the fields are the entries of the nested Python dict
(`mel_spectrogram`, `mfcc.mean/std`, the `timbre` scalars and contrast
vector, the `rhythm` and `tonal` entries). -/
structure FeatureDict where
  mel_spectrogram : List (List ℚ)
  mfcc_mean : List ℚ
  mfcc_std : List ℚ
  centroid_mean : ℚ
  centroid_std : ℚ
  bandwidth_mean : ℚ
  bandwidth_std : ℚ
  flatness_mean : ℚ
  flatness_std : ℚ
  contrast_mean : List ℚ
  rolloff_mean : ℚ
  zcr_mean : ℚ
  zcr_std : ℚ
  tempo : ℚ
  tempogram_mean : List ℚ
  chroma_mean : List ℚ
  tonnetz_mean : List ℚ

/-- `AudioFeatureExtractor.create_feature_vector`
(feature_vector_extract.py lines 223-261): the list `vectors` of
statistics — scalars wrapped as one-element arrays exactly as
`np.array([x])` does — flattened and concatenated by
`np.concatenate([v.flatten() for v in vectors])`. The
`mel_spectrogram` entry of the dictionary is not part of `vectors`. -/
def create_feature_vector (features : FeatureDict) : List ℚ :=
  let vectors : List (List ℚ) := [
    features.mfcc_mean,
    features.mfcc_std,
    [features.centroid_mean],
    [features.centroid_std],
    [features.bandwidth_mean],
    [features.bandwidth_std],
    [features.flatness_mean],
    [features.flatness_std],
    features.contrast_mean,
    [features.rolloff_mean],
    [features.zcr_mean],
    [features.zcr_std],
    [features.tempo],
    features.tempogram_mean,
    features.chroma_mean,
    features.tonnetz_mean]
  vectors.flatten

/-- The third-party signal-processing routines invoked by
`extract_features`, one abstract function per librosa call (each
already closed over the extractor's configuration arguments, as in the
source). `beat_track` returns the `(tempo, beats)` pair and `hpss`
the `(harmonic, percussive)` pair, mirroring librosa; `sqrt` stands
for the square root inside `np.std`. -/
structure Librosa where
  resample : List ℚ → Nat → Nat → List ℚ
  melspectrogram : List ℚ → List (List ℚ)
  power_to_db : List (List ℚ) → List (List ℚ)
  mfcc : List ℚ → List (List ℚ)
  delta : List (List ℚ) → Nat → List (List ℚ)
  spectral_centroid : List ℚ → List (List ℚ)
  spectral_bandwidth : List ℚ → List (List ℚ)
  spectral_flatness : List ℚ → List (List ℚ)
  spectral_contrast : List ℚ → List (List ℚ)
  spectral_rolloff : List ℚ → List (List ℚ)
  zero_crossing_rate : List ℚ → List (List ℚ)
  onset_strength : List ℚ → List ℚ
  tempogram : List ℚ → List (List ℚ)
  beat_track : List ℚ → ℚ × List ℚ
  chroma_stft : List ℚ → List (List ℚ)
  hpss : List ℚ → List ℚ × List ℚ
  tonnetz : List ℚ → List (List ℚ)
  sqrt : ℚ → ℚ

set_option linter.unusedVariables false in
/-- `AudioFeatureExtractor.extract_features`
(feature_vector_extract.py lines 50-221): normalize the signal, run
every analyzer on it (the MFCC deltas are computed and then unused,
as in the source), reduce to the statistics dictionary of lines
193-219 (`axis=1` means are per-row means; axis-free means/stds range
over the whole matrix) and assemble via `create_feature_vector`.
The delta lets are unused, matching the source, so the unused-variable
linter is off for this definition. -/
def extract_features (cfg : ExtractorConfig) (lib : Librosa)
    (audio : List ℚ) (sr : Nat) : List ℚ :=
  let audio := normalizeSignal cfg lib.resample audio sr
  let mel_spec := lib.melspectrogram audio
  let mel_spec_db := lib.power_to_db mel_spec
  let mfccs := lib.mfcc audio
  let delta_mfccs := lib.delta mfccs 1
  let delta2_mfccs := lib.delta mfccs 2
  let spectral_centroid := lib.spectral_centroid audio
  let spectral_bandwidth := lib.spectral_bandwidth audio
  let spectral_flatness := lib.spectral_flatness audio
  let spectral_contrast := lib.spectral_contrast audio
  let spectral_rolloff := lib.spectral_rolloff audio
  let zcr := lib.zero_crossing_rate audio
  let oenv := lib.onset_strength audio
  let tg := lib.tempogram oenv
  let tempo := (lib.beat_track oenv).1
  let chroma := lib.chroma_stft audio
  let harmonic := (lib.hpss audio).1
  let tonnetz := lib.tonnetz harmonic
  create_feature_vector {
    mel_spectrogram := mel_spec_db,
    mfcc_mean := mfccs.map rowMean,
    mfcc_std := mfccs.map (rowStd lib.sqrt),
    centroid_mean := matMean spectral_centroid,
    centroid_std := matStd lib.sqrt spectral_centroid,
    bandwidth_mean := matMean spectral_bandwidth,
    bandwidth_std := matStd lib.sqrt spectral_bandwidth,
    flatness_mean := matMean spectral_flatness,
    flatness_std := matStd lib.sqrt spectral_flatness,
    contrast_mean := spectral_contrast.map rowMean,
    rolloff_mean := matMean spectral_rolloff,
    zcr_mean := matMean zcr,
    zcr_std := matStd lib.sqrt zcr,
    tempo := tempo,
    tempogram_mean := tg.map rowMean,
    chroma_mean := chroma.map rowMean,
    tonnetz_mean := tonnetz.map rowMean }

/-- C4: the assembler concatenates the summary statistics in exactly
the fixed order MFCC means, MFCC standard deviations, centroid
mean/std, bandwidth mean/std, flatness mean/std, per-band contrast
means, rolloff mean, zero-crossing mean/std, tempo scalar,
tempogram-row means, chroma-bin means, tonnetz-dimension means, for
every feature dictionary. -/
theorem create_feature_vector_fixed_order (f : FeatureDict) :
    create_feature_vector f =
      f.mfcc_mean ++ f.mfcc_std ++
      [f.centroid_mean] ++ [f.centroid_std] ++
      [f.bandwidth_mean] ++ [f.bandwidth_std] ++
      [f.flatness_mean] ++ [f.flatness_std] ++
      f.contrast_mean ++ [f.rolloff_mean] ++
      [f.zcr_mean] ++ [f.zcr_std] ++ [f.tempo] ++
      f.tempogram_mean ++ f.chroma_mean ++ f.tonnetz_mean := by
  simp [create_feature_vector, List.append_assoc]

/-- A concrete `Librosa` instantiation used by witnesses: shape-correct
constant analyzers at the default configuration (20 MFCC rows, 7
contrast bands, 384 tempogram rows, 12 chroma bins, 6 tonnetz
dimensions). -/
def trivialLibrosa : Librosa where
  resample := fun a _ _ => a
  melspectrogram := fun _ => []
  power_to_db := fun m => m
  mfcc := fun _ => List.replicate 20 []
  delta := fun m _ => m
  spectral_centroid := fun _ => [[]]
  spectral_bandwidth := fun _ => [[]]
  spectral_flatness := fun _ => [[]]
  spectral_contrast := fun _ => List.replicate 7 []
  spectral_rolloff := fun _ => [[]]
  zero_crossing_rate := fun _ => [[]]
  onset_strength := fun _ => []
  tempogram := fun _ => List.replicate 384 []
  beat_track := fun _ => (0, [])
  chroma_stft := fun _ => List.replicate 12 []
  hpss := fun a => (a, a)
  tonnetz := fun _ => List.replicate 6 []
  sqrt := fun q => q

/-- C3: whenever the analyzers' row counts are fixed by the
configuration (`n_mfcc` MFCC rows, and constant contrast, tempogram,
chroma and tonnetz row counts, as librosa guarantees), the Feature
Vector length is `2·n_mfcc + nContrast + nTempogram + nChroma +
nTonnetz + 10`, a constant of the configuration, the same for every
input signal and source rate — empty, 1-sample and over-long inputs
included. -/
theorem extract_features_length_config_constant
    (cfg : ExtractorConfig) (lib : Librosa)
    (nContrast nTempogram nChroma nTonnetz : Nat)
    (hm : ∀ x, (lib.mfcc x).length = cfg.n_mfcc)
    (hc : ∀ x, (lib.spectral_contrast x).length = nContrast)
    (ht : ∀ e, (lib.tempogram e).length = nTempogram)
    (hch : ∀ x, (lib.chroma_stft x).length = nChroma)
    (hto : ∀ x, (lib.tonnetz x).length = nTonnetz)
    (audio₁ audio₂ : List ℚ) (sr₁ sr₂ : Nat) :
    (extract_features cfg lib audio₁ sr₁).length =
      2 * cfg.n_mfcc + nContrast + nTempogram + nChroma + nTonnetz + 10 ∧
    (extract_features cfg lib audio₁ sr₁).length =
      (extract_features cfg lib audio₂ sr₂).length := by
  have key : ∀ (a : List ℚ) (s : Nat), (extract_features cfg lib a s).length =
      2 * cfg.n_mfcc + nContrast + nTempogram + nChroma + nTonnetz + 10 := by
    intro a s
    simp [extract_features, create_feature_vector, hm, hc, ht, hch, hto]
    ring
  exact ⟨key audio₁ sr₁, (key audio₁ sr₁).trans (key audio₂ sr₂).symm⟩

/-- Witness for C3: default configuration, the shape-correct constant
analyzers, an empty and a 2-sample input at differing rates; the
expected constant is 2·20 + 7 + 384 + 12 + 6 + 10 = 459. -/
theorem extract_features_length_config_constant_witness :
    (extract_features defaultExtractor trivialLibrosa [] 22050).length =
      2 * defaultExtractor.n_mfcc + 7 + 384 + 12 + 6 + 10 ∧
    (extract_features defaultExtractor trivialLibrosa [] 22050).length =
      (extract_features defaultExtractor trivialLibrosa [1, 2] 44100).length :=
  extract_features_length_config_constant defaultExtractor trivialLibrosa
    7 384 12 6
    (fun x => by simp only [trivialLibrosa, List.length_replicate]; rfl)
    (fun x => by simp only [trivialLibrosa, List.length_replicate])
    (fun e => by simp only [trivialLibrosa, List.length_replicate])
    (fun x => by simp only [trivialLibrosa, List.length_replicate])
    (fun x => by simp only [trivialLibrosa, List.length_replicate])
    [] [1, 2] 22050 44100

/-- C9: for a fixed configuration and fixed analyzer routines, the
full pipeline (normalize, analyze, assemble) is a pure function of the
input signal and its source rate: two calls on equal inputs yield
equal Feature Vectors. -/
theorem extract_features_deterministic
    (cfg : ExtractorConfig) (lib : Librosa)
    (audio₁ audio₂ : List ℚ) (sr₁ sr₂ : Nat)
    (ha : audio₁ = audio₂) (hr : sr₁ = sr₂) :
    extract_features cfg lib audio₁ sr₁ = extract_features cfg lib audio₂ sr₂ := by
  rw [ha, hr]

/-- Witness for C9: two runs on the same 2-sample clip at 44100 Hz
under the default configuration coincide. -/
theorem extract_features_deterministic_witness :
    extract_features defaultExtractor trivialLibrosa [1, 2] 44100 =
      extract_features defaultExtractor trivialLibrosa [1, 2] 44100 :=
  extract_features_deterministic defaultExtractor trivialLibrosa
    [1, 2] [1, 2] 44100 44100 rfl rfl

/-! ### The Analysis Frame Grid -/

/-- Modelled from the spec: librosa's framing of a signal is not part
of the repository; the Analysis Frame Grid of spec §3 is modelled as
the sequence of length-`n_fft` windows taken at stride `hop` over the
signal (the non-centered grid whose count the spec fixes at
`n_frames = 1 + floor((D − n_fft) / hop_length)`). -/
def frameGrid (n_fft hop : Nat) (x : List ℚ) : List (List ℚ) :=
  if _h : 0 < n_fft ∧ 0 < hop ∧ n_fft ≤ x.length then
    x.take n_fft :: frameGrid n_fft hop (x.drop hop)
  else []
termination_by x.length
decreasing_by
  simp only [List.length_drop]
  omega

/-- Modelled from the spec: a frame-wise analyzer output is one value
per frame of the shared grid (spec glossary: frame-wise features
produce one value per frame). -/
def framewiseOutput (n_fft hop : Nat) (f : List ℚ → ℚ) (x : List ℚ) : List ℚ :=
  (frameGrid n_fft hop x).map f

theorem frameGrid_length (n_fft hop : Nat) (hfft : 0 < n_fft) (hhop : 0 < hop) :
    ∀ x : List ℚ, n_fft ≤ x.length →
      (frameGrid n_fft hop x).length = 1 + (x.length - n_fft) / hop := by
  have main : ∀ (n : Nat) (x : List ℚ), x.length = n → n_fft ≤ x.length →
      (frameGrid n_fft hop x).length = 1 + (x.length - n_fft) / hop := by
    intro n
    induction n using Nat.strong_induction_on with
    | _ n ih =>
      intro x hn hx
      rw [frameGrid, dif_pos ⟨hfft, hhop, hx⟩]
      by_cases hrec : n_fft ≤ x.length - hop
      · have hlen : (x.drop hop).length = x.length - hop := by
          simp [List.length_drop]
        have hlt : x.length - hop < n := by omega
        have hih := ih (x.length - hop) hlt (x.drop hop) hlen (by omega)
        rw [List.length_cons, hih, hlen]
        have hge : hop ≤ x.length - n_fft := by omega
        rw [Nat.div_eq_sub_div hhop hge]
        have hsub : x.length - hop - n_fft = x.length - n_fft - hop := by omega
        rw [hsub]
        ring
      · have hstop : frameGrid n_fft hop (x.drop hop) = [] := by
          rw [frameGrid, dif_neg]
          simp only [List.length_drop]
          omega
        rw [hstop, List.length_cons, List.length_nil]
        have hz : (x.length - n_fft) / hop = 0 := Nat.div_eq_of_lt (by omega)
        rw [hz]
  intro x hx
  exact main x.length x rfl hx

/-- `Int.tdiv` on natural-number casts is natural division. -/
theorem tdiv_natCast (a b : Nat) :
    Int.tdiv (a : Int) (b : Int) = ((a / b : Nat) : Int) := rfl

/-- C7: for a Normalized Signal of length `D = fixed_length` (with a
positive window not exceeding `D` and a positive hop), any two
frame-wise analyzer outputs over the shared grid have the same number
of frames, and that common count is exactly the constant
`n_frames = 1 + (D − n_fft) / hop_length` computed in `__init__`. -/
theorem framewise_outputs_share_n_frames
    (cfg : ExtractorConfig) (x : List ℚ) (f g : List ℚ → ℚ)
    (hfft : 0 < cfg.n_fft) (hhop : 0 < cfg.hop_length)
    (hx : x.length = cfg.fixed_length) (hD : cfg.n_fft ≤ cfg.fixed_length) :
    (framewiseOutput cfg.n_fft cfg.hop_length f x).length =
      (framewiseOutput cfg.n_fft cfg.hop_length g x).length ∧
    ((framewiseOutput cfg.n_fft cfg.hop_length f x).length : Int) = cfg.n_frames := by
  have hgrid : (frameGrid cfg.n_fft cfg.hop_length x).length =
      1 + (cfg.fixed_length - cfg.n_fft) / cfg.hop_length := by
    rw [frameGrid_length cfg.n_fft cfg.hop_length hfft hhop x (by omega), hx]
  constructor
  · simp [framewiseOutput]
  · rw [framewiseOutput, List.length_map, hgrid, ExtractorConfig.n_frames]
    have hcast : (cfg.fixed_length : Int) - (cfg.n_fft : Int) =
        ((cfg.fixed_length - cfg.n_fft : Nat) : Int) := by omega
    rw [hcast, tdiv_natCast]
    push_cast
    ring

/-- Witness for C7: the `D = 8` configuration (window 4, hop 2), row
mean and row sum as two frame-wise analyzers over an 8-sample signal;
the shared count is `1 + (8 − 4) / 2 = 3`. -/
theorem framewise_outputs_share_n_frames_witness :
    (framewiseOutput (ExtractorConfig.mk 4 4 2 8 2 2).n_fft
        (ExtractorConfig.mk 4 4 2 8 2 2).hop_length rowMean
        [1, 2, 3, 4, 5, 6, 7, 8]).length =
      (framewiseOutput (ExtractorConfig.mk 4 4 2 8 2 2).n_fft
        (ExtractorConfig.mk 4 4 2 8 2 2).hop_length List.sum
        [1, 2, 3, 4, 5, 6, 7, 8]).length ∧
    ((framewiseOutput (ExtractorConfig.mk 4 4 2 8 2 2).n_fft
        (ExtractorConfig.mk 4 4 2 8 2 2).hop_length rowMean
        [1, 2, 3, 4, 5, 6, 7, 8]).length : Int) =
      (ExtractorConfig.mk 4 4 2 8 2 2).n_frames :=
  framewise_outputs_share_n_frames (ExtractorConfig.mk 4 4 2 8 2 2)
    [1, 2, 3, 4, 5, 6, 7, 8] rowMean List.sum
    (by norm_num) (by norm_num)
    (by norm_num [ExtractorConfig.fixed_length]; rfl)
    (by norm_num [ExtractorConfig.fixed_length])

/-! ### The Similarity Matching Engine (`mongoclient.py`) -/

/-- A Known Track Record as upserted into the `Known_Music`
collection (mongoclient.py lines 62-77): file name, stored feature
vector and the genre index of its ingestion batch. -/
structure KnownTrack where
  file_name : String
  vector : List ℚ
  genre_index : Nat
deriving Repr, DecidableEq

/-- A Match Result as shaped by the `$project` stage of `run_query`
(mongoclient.py lines 110-117): `file_name`, `genre_index` and the
`vectorSearchScore` metadata, `_id` excluded. -/
structure MatchResult where
  file_name : String
  genre_index : Nat
  score : ℚ
deriving Repr, DecidableEq

/-- The `$vectorSearch` stage built by `run_query`
(mongoclient.py lines 99-109), field for field. -/
structure VectorSearchSpec where
  exact : Bool
  index : String
  limit : Nat
  numCandidates : Nat
  path : String
  queryVector : List ℚ
deriving Repr, DecidableEq

/-- Squared euclidean distance over paired coordinates. `List.zip`
truncates to the shorter operand, so vectors of unequal length are
compared on their common prefix only. -/
def sqDist (q v : List ℚ) : ℚ := ((q.zip v).map fun p => (p.1 - p.2) * (p.1 - p.2)).sum

/-- Modelled from the spec: the store's similarity score
(spec §4.4: exact nearest-neighbor over a similarity/distance metric)
as the euclidean-style score `1 / (1 + d²)`, strictly decreasing in
the distance and maximal, with value 1, exactly at distance zero. -/
def vsScore (q v : List ℚ) : ℚ := 1 / (1 + sqDist q v)

/-- The projection of one corpus record into a Match Result for a
given query. -/
def toResult (q : List ℚ) (t : KnownTrack) : MatchResult :=
  { file_name := t.file_name, genre_index := t.genre_index,
    score := vsScore q t.vector }

/-- Non-increasing-score order on Match Results. -/
def scoreGE (a b : MatchResult) : Prop := b.score ≤ a.score

instance : DecidableRel scoreGE :=
  fun a b => inferInstanceAs (Decidable (b.score ≤ a.score))

instance : IsTotal MatchResult scoreGE := ⟨fun a b => le_total b.score a.score⟩

instance : IsTrans MatchResult scoreGE :=
  ⟨fun _ _ _ hab hbc => le_trans hbc hab⟩

/-- Modelled from the spec: the Corpus Store's `$vectorSearch` in
exact mode (spec §4.4 and §6 — exact nearest-neighbor search over
every stored vector, ranked by non-increasing similarity score,
truncated to `limit` results). The store itself is MongoDB, external
to the repository. -/
def vectorSearchExact (corpus : List KnownTrack) (p : VectorSearchSpec) :
    List MatchResult :=
  (List.insertionSort scoreGE (corpus.map (toResult p.queryVector))).take p.limit

/-- The typed errors of spec §7 that the matching layer could raise. -/
inductive StoreError where
  | dimensionMismatch
  | upstreamFailure
deriving Repr, DecidableEq

/-- `MusicMongoClient.run_query` (mongoclient.py lines 89-125): build
the two-stage aggregation pipeline — `$vectorSearch` with
`exact: true`, `limit: 10`, `numCandidates: 5`, the query vector
passed through unchanged, then the `$project` stage — and return
whatever the store's aggregation yields, unpacked to a list. The
function performs no validation of its own (in particular no
dimension check); `Except` models the possibility of a raised
exception, and only the store parameter can produce one. -/
def run_query
    (aggregate : VectorSearchSpec → Except StoreError (List MatchResult))
    (query_embedding : List ℚ) : Except StoreError (List MatchResult) :=
  let pipeline : VectorSearchSpec :=
    { exact := true, index := "vector-index", limit := 10,
      numCandidates := 5, path := "features", queryVector := query_embedding }
  aggregate pipeline

/-- The pipeline `run_query` sends to the store, as a value: the
`$vectorSearch` stage of mongoclient.py lines 100-109. -/
def queryPipeline (q : List ℚ) : VectorSearchSpec :=
  { exact := true, index := "vector-index", limit := 10,
    numCandidates := 5, path := "features", queryVector := q }

/-- The spec-modelled store as an aggregation backend: total, never
raising. -/
def specStore (corpus : List KnownTrack) :
    VectorSearchSpec → Except StoreError (List MatchResult) :=
  fun p => Except.ok (vectorSearchExact corpus p)

/-- The match list `run_query` produces against the spec-modelled
store. -/
def queryMatches (corpus : List KnownTrack) (q : List ℚ) : List MatchResult :=
  vectorSearchExact corpus (queryPipeline q)

/-- C1 counterexample: a corpus whose single stored vector has length
2 against a query of length 3. `run_query` does not raise — it
proceeds and returns a ranked match (with perfect score, the stored
vector agreeing with the query on the compared prefix): the claimed
`DimensionMismatchError` refusal does not happen. -/
theorem run_query_dimension_mismatch_proceeds :
    run_query (specStore [{ file_name := "track-a", vector := [1, 0], genre_index := 0 }])
        [1, 0, 0] =
      Except.ok
        (queryMatches [{ file_name := "track-a", vector := [1, 0], genre_index := 0 }]
          [1, 0, 0]) ∧
    queryMatches [{ file_name := "track-a", vector := [1, 0], genre_index := 0 }]
        [1, 0, 0] =
      [{ file_name := "track-a", genre_index := 0, score := 1 }] ∧
    ([1, 0] : List ℚ).length ≠ ([1, 0, 0] : List ℚ).length := by
  refine ⟨rfl, ?_, by decide⟩
  norm_num [queryMatches, vectorSearchExact, queryPipeline, toResult, vsScore, sqDist]

/-- C1 amended: `run_query` performs no dimension validation at all:
for every store backend it hands over the pipeline with the query
vector embedded unchanged and returns the store's answer, and against
the (total) spec-modelled store every query — dimension-mismatched or
not — yields `Except.ok` of the ranked matches, never a
`DimensionMismatchError`; mismatch handling is wholly delegated to
the external store. -/
theorem run_query_no_dimension_check
    (aggregate : VectorSearchSpec → Except StoreError (List MatchResult))
    (corpus : List KnownTrack) (q : List ℚ) :
    run_query aggregate q = aggregate (queryPipeline q) ∧
    run_query (specStore corpus) q = Except.ok (queryMatches corpus q) :=
  ⟨rfl, rfl⟩

/-! ### Properties of the modelled similarity score -/

theorem sqDist_nonneg (q v : List ℚ) : 0 ≤ sqDist q v := by
  unfold sqDist
  apply List.sum_nonneg
  intro x hx
  simp only [List.mem_map] at hx
  obtain ⟨p, _, rfl⟩ := hx
  exact mul_self_nonneg _

theorem sqDist_self (q : List ℚ) : sqDist q q = 0 := by
  induction q with
  | nil => rfl
  | cons a t ih =>
    unfold sqDist at ih ⊢
    rw [List.zip_cons_cons, List.map_cons, List.sum_cons, ih, sub_self,
      mul_zero, add_zero]

theorem eq_of_sqDist_eq_zero :
    ∀ {q v : List ℚ}, q.length = v.length → sqDist q v = 0 → q = v := by
  intro q
  induction q with
  | nil =>
    intro v hl _
    cases v with
    | nil => rfl
    | cons b s => simp at hl
  | cons a t ih =>
    intro v hl h0
    cases v with
    | nil => simp at hl
    | cons b s =>
      have hsplit : sqDist (a :: t) (b :: s) = (a - b) * (a - b) + sqDist t s := by
        unfold sqDist
        rw [List.zip_cons_cons, List.map_cons, List.sum_cons]
      rw [hsplit] at h0
      have h1 : 0 ≤ (a - b) * (a - b) := mul_self_nonneg _
      have h2 : 0 ≤ sqDist t s := sqDist_nonneg t s
      have hab : (a - b) * (a - b) = 0 := by linarith
      have hts : sqDist t s = 0 := by linarith
      have hA : a = b := by
        have := mul_self_eq_zero.mp hab
        linarith
      have hT : t = s := ih (by simpa using hl) hts
      rw [hA, hT]

theorem one_add_sqDist_pos (q v : List ℚ) : 0 < 1 + sqDist q v := by
  linarith [sqDist_nonneg q v]

theorem vsScore_le_one (q v : List ℚ) : vsScore q v ≤ 1 := by
  unfold vsScore
  rw [div_le_one (one_add_sqDist_pos q v)]
  linarith [sqDist_nonneg q v]

theorem vsScore_self (q : List ℚ) : vsScore q q = 1 := by
  unfold vsScore
  rw [sqDist_self]
  norm_num

theorem sqDist_eq_zero_of_vsScore_eq_one {q v : List ℚ}
    (h : vsScore q v = 1) : sqDist q v = 0 := by
  unfold vsScore at h
  rw [div_eq_one_iff_eq (ne_of_gt (one_add_sqDist_pos q v))] at h
  linarith

/-- C8: against the spec-modelled store, `run_query` returns the
ranked match list: its length is at most `K = 10`, it is sorted by
non-increasing similarity score, and whenever the query equals the
vector of corpus entry `i` (all corpus vectors having the query's
dimension and entry `i` being the only one whose vector equals the
query), the first result is exactly the projection of entry `i`, its
score is the maximal score 1, and every returned score is at most 1. -/
theorem run_query_top10_sorted_selfmatch_first
    (corpus : List KnownTrack) (q : List ℚ) (i : Nat)
    (hi : i < corpus.length)
    (hvec : (corpus.get ⟨i, hi⟩).vector = q)
    (hlen : ∀ t ∈ corpus, t.vector.length = q.length)
    (huniq : ∀ j, (hj : j < corpus.length) →
      (corpus.get ⟨j, hj⟩).vector = q → j = i) :
    run_query (specStore corpus) q = Except.ok (queryMatches corpus q) ∧
    (queryMatches corpus q).length ≤ 10 ∧
    (queryMatches corpus q).Sorted scoreGE ∧
    (queryMatches corpus q).head? = some (toResult q (corpus.get ⟨i, hi⟩)) ∧
    (toResult q (corpus.get ⟨i, hi⟩)).score = 1 ∧
    ∀ r ∈ queryMatches corpus q, r.score ≤ 1 := by
  have hscore_mem : ∀ r ∈ corpus.map (toResult q), r.score ≤ 1 := by
    intro r hr
    simp only [List.mem_map] at hr
    obtain ⟨t, _, rfl⟩ := hr
    exact vsScore_le_one q t.vector
  have hsort : (List.insertionSort scoreGE (corpus.map (toResult q))).Sorted scoreGE :=
    List.sorted_insertionSort scoreGE (corpus.map (toResult q))
  have hperm : ∀ r, r ∈ List.insertionSort scoreGE (corpus.map (toResult q)) ↔
      r ∈ corpus.map (toResult q) := fun r => List.mem_insertionSort scoreGE
  have hqm : queryMatches corpus q =
      (List.insertionSort scoreGE (corpus.map (toResult q))).take 10 := rfl
  have he₀score : (toResult q (corpus.get ⟨i, hi⟩)).score = 1 := by
    unfold toResult
    rw [hvec]
    exact vsScore_self q
  have he₀mem : toResult q (corpus.get ⟨i, hi⟩) ∈
      List.insertionSort scoreGE (corpus.map (toResult q)) :=
    (hperm _).mpr (List.mem_map_of_mem (toResult q) (corpus.get_mem i hi))
  refine ⟨rfl, ?_, ?_, ?_, he₀score, ?_⟩
  · rw [hqm, List.length_take]
    exact min_le_left _ _
  · rw [hqm]
    exact hsort.sublist (List.take_sublist 10 _)
  · rcases hsorted_eq : List.insertionSort scoreGE (corpus.map (toResult q)) with
      _ | ⟨hd, tl⟩
    · rw [hsorted_eq] at he₀mem
      simp at he₀mem
    · have hhd_le : hd.score ≤ 1 := by
        apply hscore_mem
        rw [← hperm hd, hsorted_eq]
        exact List.mem_cons_self hd tl
      have hhd_ge : 1 ≤ hd.score := by
        rw [hsorted_eq] at he₀mem
        rcases List.mem_cons.mp he₀mem with heq | htl
        · rw [← heq, he₀score]
        · have := List.rel_of_sorted_cons (hsorted_eq ▸ hsort) _ htl
          unfold scoreGE at this
          rw [he₀score] at this
          exact this
      have hhd_one : hd.score = 1 := le_antisymm hhd_le hhd_ge
      have hhd_scored : hd ∈ corpus.map (toResult q) := by
        rw [← hperm hd, hsorted_eq]
        exact List.mem_cons_self hd tl
      simp only [List.mem_map] at hhd_scored
      obtain ⟨t, htmem, htres⟩ := hhd_scored
      have htscore : vsScore q t.vector = 1 := by
        have : (toResult q t).score = vsScore q t.vector := rfl
        rw [htres] at this
        rw [← this, hhd_one]
      have htvec : t.vector = q :=
        (eq_of_sqDist_eq_zero (hlen t htmem).symm
          (sqDist_eq_zero_of_vsScore_eq_one htscore)).symm
      obtain ⟨⟨j, hj⟩, hget⟩ := List.mem_iff_get.mp htmem
      have hji : j = i := huniq j hj (by rw [hget, htvec])
      have ht_is_i : t = corpus.get ⟨i, hi⟩ := by
        rw [← hget]
        congr 1
        exact Fin.ext hji
      rw [hqm, hsorted_eq]
      simp only [List.take_succ_cons, List.head?_cons]
      rw [← htres, ht_is_i]
  · intro r hr
    rw [hqm] at hr
    exact hscore_mem r ((hperm r).mp (List.mem_of_mem_take hr))

/-- Witness for C8: a two-track corpus with orthogonal unit vectors
and the query equal to track 1's vector. -/
theorem run_query_top10_sorted_selfmatch_first_witness :
    run_query (specStore
        [{ file_name := "a", vector := [1, 0], genre_index := 0 },
         { file_name := "b", vector := [0, 1], genre_index := 1 }]) [0, 1] =
      Except.ok (queryMatches
        [{ file_name := "a", vector := [1, 0], genre_index := 0 },
         { file_name := "b", vector := [0, 1], genre_index := 1 }] [0, 1]) ∧
    (queryMatches
        [{ file_name := "a", vector := [1, 0], genre_index := 0 },
         { file_name := "b", vector := [0, 1], genre_index := 1 }] [0, 1]).length ≤ 10 ∧
    (queryMatches
        [{ file_name := "a", vector := [1, 0], genre_index := 0 },
         { file_name := "b", vector := [0, 1], genre_index := 1 }] [0, 1]).Sorted scoreGE ∧
    (queryMatches
        [{ file_name := "a", vector := [1, 0], genre_index := 0 },
         { file_name := "b", vector := [0, 1], genre_index := 1 }] [0, 1]).head? =
      some (toResult [0, 1]
        (([{ file_name := "a", vector := [1, 0], genre_index := 0 },
           { file_name := "b", vector := [0, 1], genre_index := 1 }] :
            List KnownTrack).get ⟨1, by norm_num⟩)) ∧
    (toResult [0, 1]
        (([{ file_name := "a", vector := [1, 0], genre_index := 0 },
           { file_name := "b", vector := [0, 1], genre_index := 1 }] :
            List KnownTrack).get ⟨1, by norm_num⟩)).score = 1 ∧
    ∀ r ∈ queryMatches
        [{ file_name := "a", vector := [1, 0], genre_index := 0 },
         { file_name := "b", vector := [0, 1], genre_index := 1 }] [0, 1],
      r.score ≤ 1 :=
  run_query_top10_sorted_selfmatch_first
    [{ file_name := "a", vector := [1, 0], genre_index := 0 },
     { file_name := "b", vector := [0, 1], genre_index := 1 }] [0, 1] 1
    (by norm_num)
    (by norm_num)
    (by
      intro t ht
      rcases List.mem_cons.mp ht with h | h
      · rw [h]
        rfl
      · rcases List.mem_cons.mp h with h2 | h2
        · rw [h2]
        · simp at h2)
    (by
      intro j hj hv
      have hj2 : j < 2 := by simpa using hj
      interval_cases j
      · exfalso
        norm_num at hv
      · rfl)

/-! ### The request path (`process_vector_request` and the route) -/

/-- `MusicMongoClient.process_vector_request`
(mongoclient.py lines 130-147): decode the uploaded file into a
sample array (pydub + numpy float conversion, the abstract `decode`),
extract features with the source rate hardcoded to `sr = 22050`, and
run the store query on the resulting vector. The method accepts no
sample-rate argument. -/
def process_vector_request (cfg : ExtractorConfig) (lib : Librosa)
    (aggregate : VectorSearchSpec → Except StoreError (List MatchResult))
    {α : Type} (decode : α → List ℚ) (audio_file : α) :
    Except StoreError (List MatchResult) :=
  let audio_array := decode audio_file
  let audio_feature_vector := extract_features cfg lib audio_array 22050
  run_query aggregate audio_feature_vector

/-- An inbound classify request at the route boundary
(routes.py lines 19-26): the uploaded audio and the client-supplied
sample rate (defaulted to 44100 when the form field is absent). -/
structure ClassifyRequest (α : Type) where
  audio : α
  sample_rate : Nat

/-- A JSON response envelope as the route handlers return them
(routes.py). -/
structure RouteResponse where
  status : String
  message : String
deriving Repr, DecidableEq

/-- A Python runtime error raised at a call boundary. -/
inductive PyCallError where
  | typeError
deriving Repr, DecidableEq

/-- Modelled Python positional-argument binding: calling a bound
method whose signature declares `arity` positional parameters
(besides `self`) with `nargs` supplied arguments runs the body only
when the counts agree, and raises `TypeError` before the body
executes otherwise. -/
def bindCall (arity nargs : Nat) {α : Type} (body : α) :
    Except PyCallError α :=
  if nargs = arity then Except.ok body else Except.error PyCallError.typeError

/-- The `classify_genre` route handler (routes.py lines 13-44): read
the uploaded audio and the client sample rate (default 44100), then
call `client.process_vector_request(audio, sampling_rate)` — two
positional arguments at line 26 against the method's single
`audio_file` parameter (mongoclient.py line 130), modelled as
`bindCall 1 2`. On a successful binding the handler's response
building (lines 28-36) is the abstract `render`; any exception falls
to the broad `except` of line 42, which answers with the generic 500
envelope of line 44. -/
def classify_genre (cfg : ExtractorConfig) (lib : Librosa)
    (aggregate : VectorSearchSpec → Except StoreError (List MatchResult))
    {α : Type} (decode : α → List ℚ)
    (render : Except StoreError (List MatchResult) → RouteResponse)
    (req : ClassifyRequest α) : RouteResponse :=
  match bindCall 1 2
      (process_vector_request cfg lib aggregate decode req.audio) with
  | Except.ok result => render result
  | Except.error _ => { status := "500", message := "internal server error" }

/-- C10: the method body has the claim's intent — it fixes the
extraction source rate to 22050, the extractor's target — but a
caller slip defeats the claim: routes.py line 26 supplies two
positional arguments to the one-parameter `process_vector_request`,
so argument binding raises `TypeError` before the method body runs,
and every inbound request — for every configuration, analyzer set,
store backend, decoder, renderer, uploaded audio and client-supplied
sample rate — is answered with the generic 500 envelope, never
reaching feature extraction. -/
theorem classify_genre_arity_slip_always_500
    (cfg : ExtractorConfig) (lib : Librosa)
    (aggregate : VectorSearchSpec → Except StoreError (List MatchResult))
    {α : Type} (decode : α → List ℚ)
    (render : Except StoreError (List MatchResult) → RouteResponse)
    (req : ClassifyRequest α) :
    bindCall 1 2 (process_vector_request cfg lib aggregate decode req.audio) =
      Except.error PyCallError.typeError ∧
    classify_genre cfg lib aggregate decode render req =
      { status := "500", message := "internal server error" } := by
  constructor
  · unfold bindCall
    rw [if_neg (by norm_num)]
  · unfold classify_genre bindCall
    rw [if_neg (by norm_num)]

end TrackMaster
